import Mathlib

/-
Verification of the power-output batch pipeline (compute_torque.py).

Embedding conventions:
* pandas columns are Lean lists; row i of a column is entry i of the list.
* A cell that pandas would turn into NaN/NaT (unparsable or missing value) is
  modelled as `none : Option ℚ`.  The raw `timestamp` cell is abstracted by the
  result of `pd.to_datetime(..., errors="coerce")` on it (an absolute time in
  seconds, or `none` for NaT); the raw `power`/`speed` cells are abstracted by
  the result of `pd.to_numeric(..., errors="coerce")`.
* Python floats are modelled as exact rationals: every formula the claims
  mention is a fixed arithmetic expression evaluated once per row, and the
  claims are about the shape of those expressions, not about rounding.
* `pd.to_datetime(..., errors="coerce")` returns NaT for unparsable entries
  without raising; the `except` branch of compute_torque.py (lines 21-26) only
  runs when the whole-column conversion itself raises, which is modelled by the
  explicit input flag `toDatetimeRaises`.
* `np.nanmedian` of an empty array is NaN (`none`), while `np.nanmax` of an
  empty (zero-size) array raises ValueError; fallible computations are
  `Except Unit`.
-/

deriving instance DecidableEq for Except

/-- Boolean test that `pat` is a leading segment of `l` (character lists). -/
def leadsWith : List Char → List Char → Bool
  | [], _ => true
  | _ :: _, [] => false
  | a :: as, b :: bs => a == b && leadsWith as bs

/-- Boolean substring test: does `hay` contain `pat` somewhere?  Models the
Python expression `pat in hay` on strings. -/
def hasSub (pat : List Char) : List Char → Bool
  | [] => leadsWith pat []
  | c :: rest => leadsWith pat (c :: rest) || hasSub pat rest

/-- `strIncl hay pat` models Python `pat in hay`. -/
def strIncl (hay pat : String) : Bool := hasSub pat.data hay.data

/-- Per-character lowercasing; models Python `str.lower` on ASCII data. -/
def pyLower (s : String) : String := ⟨s.data.map Char.toLower⟩

/-- Lexicographic strict comparison of character lists by code point;
models Python string `<`. -/
def listLtB : List Char → List Char → Bool
  | [], [] => false
  | [], _ :: _ => true
  | _ :: _, [] => false
  | a :: as, b :: bs => if a = b then listLtB as bs else decide (a < b)

/-- Python string `<`. -/
def strLtB (a b : String) : Bool := listLtB a.data b.data

/-- Python string `<=`. -/
def strLeB (a b : String) : Bool := strLtB a b || a == b

/-- Python `<=` on `(pilot display name, csv path)` tuples, the sort key used
for the series of one comparison plot. -/
def pairLeB (a b : String × String) : Bool :=
  strLtB a.1 b.1 || (a.1 == b.1 && strLeB a.2 b.2)

/-- Stable insertion of `x` into `l`, keeping `x` in front of every later
element `y` with `r x y`. -/
def insertOrd (r : α → α → Bool) (x : α) : List α → List α
  | [] => [x]
  | y :: ys => if r x y then x :: y :: ys else y :: insertOrd r x ys

/-- Stable insertion sort; models Python `sorted` (which is stable) for a total
preorder `r` playing the role of `<=` on the sort key. -/
def insSort (r : α → α → Bool) : List α → List α
  | [] => []
  | x :: xs => insertOrd r x (insSort r xs)

/-- Minimum of a list of rationals, `none` when empty; models `Series.min`
after `dropna`. -/
def minList : List ℚ → Option ℚ
  | [] => none
  | x :: t =>
    match minList t with
    | none => some x
    | some y => some (min x y)

/-- `ts.dropna().min()`: minimum of the parsed values of an optional column,
`none` (NaT) when no value is parsed. -/
def minsome (xs : List (Option ℚ)) : Option ℚ := minList (xs.filterMap id)

/-- One raw input row, each cell abstracted by its pandas parse result
(see the header comment). -/
structure RawRow where
  timestamp : Option ℚ
  power : Option ℚ
  speed : Option ℚ
deriving DecidableEq

/-- One raw tabular run: which of the three columns are present, whether the
whole-column `pd.to_datetime` call raises (it does not for ordinary
unparsable data under `errors="coerce"`), and the rows. -/
structure RawFrame where
  hasTimestamp : Bool
  hasPower : Bool
  hasSpeed : Bool
  toDatetimeRaises : Bool
  rows : List RawRow
deriving DecidableEq

/-- The four derived columns produced by `compute_torque_frame`. -/
structure NormFrame where
  time_s : List (Option ℚ)
  speed_mps : List ℚ
  power_w : List ℚ
  torque4_nm : List (Option ℚ)
deriving DecidableEq

/-- mph to m/s conversion factor 0.44704 (compute_torque.py line 29). -/
def mphToMps : ℚ := 44704 / 100000

/-- Lines 16-18: synthesize missing columns, `timestamp` as all-NaN (`none`),
`power`/`speed` as the float 0.0. -/
def ensureColumns (f : RawFrame) : RawFrame :=
  { f with
    hasTimestamp := true
    hasPower := true
    hasSpeed := true
    rows := f.rows.map fun r =>
      { timestamp := if f.hasTimestamp then r.timestamp else none
        power := if f.hasPower then r.power else some 0
        speed := if f.hasSpeed then r.speed else some 0 } }

/-- The effective timestamp column of a frame after column synthesis. -/
def effTs (f : RawFrame) : List (Option ℚ) :=
  f.rows.map fun r => if f.hasTimestamp then r.timestamp else none

/-- Lines 21-26, the time base in seconds.  In the `try` branch
`t0 = ts.dropna().min()` and `time_s = (ts - t0).dt.total_seconds()`: when `t0`
is a time, each parsed row gets `parsed - t0` and NaT rows stay NaN; when `t0`
is NaT (no row parsed), every difference is NaT, i.e. the whole column is NaN.
Only when the conversion raises does the `except` branch produce the ordinal
column `np.arange(len(df))`. -/
def timeColumn (f : RawFrame) : List (Option ℚ) :=
  if f.toDatetimeRaises then
    (List.range f.rows.length).map fun (i : ℕ) => some ((i : ℚ))
  else
    match minsome (f.rows.map (·.timestamp)) with
    | some t0 => (f.rows.map (·.timestamp)).map fun o => o.map fun t => t - t0
    | none => (f.rows.map (·.timestamp)).map fun _ => none

/-- Line 37, one row of the torque column:
`(power_w * ratio * wheel2_radius_m) / speed_mps.replace({0.0: np.nan})`
where the gear-ratio argument is `none` (NaN) when `gear3_teeth == 0`
(line 35) and the divisor is `none` when the speed is exactly zero.  Any NaN
operand makes the result NaN, i.e. `none`. -/
def torqueVal (r : Option ℚ) (wheel power speed : ℚ) : Option ℚ :=
  match r with
  | none => none
  | some g => if speed = 0 then none else some (power * g * wheel / speed)

/-- Model of `compute_torque_frame` (compute_torque.py lines 9-39). -/
def compute_torque_frame (gear3_teeth gear4_teeth : ℤ) (wheel2_radius_m : ℚ)
    (f0 : RawFrame) : NormFrame :=
  let f := ensureColumns f0
  let speed := f.rows.map fun r => r.speed.getD 0 * mphToMps
  let power := f.rows.map fun r => r.power.getD 0
  let r : Option ℚ :=
    if gear3_teeth = 0 then none
    else some ((gear4_teeth : ℚ) / (gear3_teeth : ℚ))
  { time_s := timeColumn f
    speed_mps := speed
    power_w := power
    torque4_nm := List.zipWith (fun p s => torqueVal r wheel2_radius_m p s) power speed }

/-- Model of `extract_test_type` (compute_torque.py lines 61-75): lowercase the
filename, then check `250`, `200`, `150` (each only when `passive` is absent),
then `passive`, else `Unknown`. -/
def extract_test_type (filename : String) : String :=
  let fl := pyLower filename
  if strIncl fl ("250") && !(strIncl fl ("passive")) then "250W"
  else if strIncl fl ("200") && !(strIncl fl ("passive")) then "200W"
  else if strIncl fl ("150") && !(strIncl fl ("passive")) then "150W"
  else if strIncl fl ("passive") then "Passive"
  else "Unknown"

/-- The pattern " Tests" as a character list. -/
def testsPat : List Char := [' ', 'T', 'e', 's', 't', 's']

/-- Python `s.replace(' Tests', '')` (compute_torque.py line 81): delete every
non-overlapping occurrence of " Tests", scanning left to right and continuing
after each deleted occurrence. -/
def removeTests : List Char → List Char
  | ' ' :: 'T' :: 'e' :: 's' :: 't' :: 's' :: rest => removeTests rest
  | c :: rest => c :: removeTests rest
  | [] => []

/-- Python `str.strip()`: trim whitespace from both ends. -/
def pyStrip (l : List Char) : List Char :=
  ((l.dropWhile Char.isWhitespace).reverse.dropWhile Char.isWhitespace).reverse

/-- Lines 83-85: if the cleaned name has length > 1, its last character is
uppercase and its second-to-last is lowercase, insert a space before the last
character (`name[:-1] + ' ' + name[-1]`); otherwise return it unchanged. -/
def camelFix (name : List Char) : List Char :=
  match name.reverse with
  | a :: b :: _ => if a.isUpper && b.isLower then name.dropLast ++ [' ', a] else name
  | _ => name

/-- Model of `extract_pilot_short_name` (compute_torque.py lines 78-85). -/
def extract_pilot_short_name (s : String) : String :=
  ⟨camelFix (pyStrip (removeTests s.data))⟩

/-- Boolean suffix test on character lists. -/
def endsWithL (l pat : List Char) : Bool := leadsWith pat.reverse l.reverse

/-- Modelled from the spec: the display-name transformation exactly as claim C7
words it — strip only a single trailing " Tests" suffix (exact, case
sensitive), trim whitespace, then apply the camel-boundary split once. -/
def display_name_claimed (s : String) : String :=
  let t := if endsWithL s.data testsPat then s.data.take (s.data.length - 6) else s.data
  ⟨camelFix (pyStrip t)⟩

/-- Modelled from the spec (amended claim C7): split the string at every
non-overlapping occurrence of " Tests", scanning left to right.  Concatenating
the parts is Python `s.replace(' Tests', '')`. -/
def splitOnTests : List Char → List (List Char)
  | ' ' :: 'T' :: 'e' :: 's' :: 't' :: 's' :: rest => [] :: splitOnTests rest
  | c :: rest =>
    match splitOnTests rest with
    | [] => [[c]]
    | h :: t => (c :: h) :: t
  | [] => [[]]

/-- The pattern ".csv" as a character list. -/
def csvPat : List Char := ['.', 'c', 's', 'v']

/-- `Path.stem` for the `*.csv` files handled by the pipeline: the file name
without its trailing ".csv" suffix (a bare ".csv" has no stemmable suffix). -/
def stemOf (s : String) : String :=
  if endsWithL s.data csvPat && decide (4 < s.data.length) then
    ⟨s.data.take (s.data.length - 4)⟩
  else s

/-- Lines 96-104 of `create_comparison_plots`: the flat sequence of
`(test type, (pilot display name, csv path))` triples in iteration order —
pilot directories sorted by name, files sorted within each directory. -/
def entriesOf (pilots : List (String × List String)) :
    List (String × (String × String)) :=
  (insSort (fun a b => strLtB a.1 b.1 || a.1 == b.1) pilots).flatMap fun pr =>
    (insSort strLeB pr.2).map fun fn =>
      (extract_test_type (stemOf fn), (extract_pilot_short_name pr.1, pr.1 ++ "/" ++ fn))

/-- `test_data[test_type].append(v)` with dict autovivification: append `v` to
the list stored at key `k`, creating the key at the end on first use
(Python dicts preserve insertion order). -/
def addEntry (m : List (String × List β)) (k : String) (v : β) :
    List (String × List β) :=
  match m with
  | [] => [(k, [v])]
  | (k', l) :: rest =>
    if k' = k then (k', l ++ [v]) :: rest else (k', l) :: addEntry rest k v

/-- Build the `test_data` dict by folding `addEntry` over the entry sequence. -/
def groupEntries (es : List (String × β)) : List (String × List β) :=
  es.foldl (fun m e => addEntry m e.1 e.2) []

/-- Dict lookup returning the stored list, `[]` when the key is absent. -/
def getList : List (String × List β) → String → List β
  | [], _ => []
  | (k', l) :: rest, k => if k' = k then l else getList rest k

/-- Model of the pure core of `create_comparison_plots` (lines 88-137): the
overlays it draws, as `(test type, plotted series)` pairs in output order.
Input: the pilot directories of `csv_out_dir`, each with its run file names.
`sorted(test_data.items())` orders overlays by test type; `Unknown` is
skipped; `sorted(pilot_files)` orders the series of one overlay by
`(pilot display name, path)`. -/
def create_comparison_plots (pilots : List (String × List String)) :
    List (String × List (String × String)) :=
  let td := groupEntries (entriesOf pilots)
  ((insSort (fun a b => strLtB a.1 b.1 || a.1 == b.1) td).filter
      (fun kv => kv.1 != "Unknown")).map
    fun kv => (kv.1, insSort pairLeB kv.2)

/-- `np.nanmedian(v)`: NaN (`none`) when no value is defined (this includes the
zero-size array, which only emits a RuntimeWarning), otherwise the median of
the defined values — middle of the sorted defined values, or the mean of the
two middles for an even count. -/
def nanmedian (xs : List (Option ℚ)) : Option ℚ :=
  let d := xs.filterMap id
  if d.isEmpty then none
  else
    let s := insSort (fun a b : ℚ => decide (a ≤ b)) d
    let n := d.length
    some (if n % 2 = 1 then s.getD (n / 2) 0
          else (s.getD (n / 2 - 1) 0 + s.getD (n / 2) 0) / 2)

/-- `np.nanmax(v)`: raises ValueError on a zero-size array; on a nonempty array
it is the maximum of the defined values, or NaN (`none`) when every value is
NaN (that case only emits a RuntimeWarning). -/
def nanmax (xs : List (Option ℚ)) : Except Unit (Option ℚ) :=
  if xs.isEmpty then .error ()
  else
    .ok (match xs.filterMap id with
         | [] => none
         | a :: t => some (t.foldl max a))

/-- Lines 202-208: the numeric part of one summary record,
`(torque_median_nm, torque_max_nm)`.  `np.nanmedian` is evaluated first (it
never raises), then `np.nanmax` (which raises on an empty column). -/
def summaryRecord (nf : NormFrame) : Except Unit (Option ℚ × Option ℚ) :=
  let med := nanmedian nf.torque4_nm
  (nanmax nf.torque4_nm).map fun mx => (med, mx)

/-- One iteration of the run loop (lines 167-208) acting on the summary-record
accumulator.  A run is abstracted by its load result: `Except.error` when
`pd.read_csv` raises (the run is skipped, line 178), `Except.ok` with the
loaded frame otherwise.  An exception while building the summary record
propagates and aborts the whole loop. -/
def runStep (gear3_teeth gear4_teeth : ℤ) (wheel2_radius_m : ℚ)
    (acc : Except Unit (List (Option ℚ × Option ℚ))) (run : Except Unit RawFrame) :
    Except Unit (List (Option ℚ × Option ℚ)) :=
  match acc with
  | .error e => .error e
  | .ok recs =>
    match run with
    | .error _ => .ok recs
    | .ok df =>
      match summaryRecord (compute_torque_frame gear3_teeth gear4_teeth wheel2_radius_m df) with
      | .error e => .error e
      | .ok rec => .ok (recs ++ [rec])

/-- The summary records accumulated over the whole batch (lines 165-208). -/
def batchRecords (gear3_teeth gear4_teeth : ℤ) (wheel2_radius_m : ℚ)
    (runs : List (Except Unit RawFrame)) : Except Unit (List (Option ℚ × Option ℚ)) :=
  runs.foldl (runStep gear3_teeth gear4_teeth wheel2_radius_m) (.ok [])

/-- Model of `main` (lines 140-218): return code 1 when no run file is
discovered (line 163), otherwise run the batch and return 0; an exception
escaping the run loop aborts `main` (`Except.error`).  (Named `pyMain` because
Lean reserves the name `main` for executables.) -/
def pyMain (gear3_teeth gear4_teeth : ℤ) (wheel2_radius_m : ℚ)
    (runs : List (Except Unit RawFrame)) : Except Unit ℕ :=
  if runs.isEmpty then .ok 1
  else (batchRecords gear3_teeth gear4_teeth wheel2_radius_m runs).map fun _ => 0

/-- A loaded run with zero data rows (what `pd.read_csv` yields for a
header-only CSV file); all three columns are present. -/
def emptyFrame : RawFrame := ⟨true, true, true, false, []⟩

/-- A one-row run whose timestamp cell is unparsable (NaT under
`errors="coerce"`, no exception raised) and whose numeric cells are zero. -/
def allNatFrame : RawFrame := ⟨true, true, true, false, [⟨none, some 0, some 0⟩]⟩

/-- A one-row run with an unparsable timestamp, power 5 and speed 0. -/
def zeroSpeedFrame : RawFrame := ⟨true, true, true, false, [⟨none, some 5, some 0⟩]⟩

/-- A one-row run with an unparsable timestamp and nonzero power and speed. -/
def plainRowFrame : RawFrame := ⟨true, true, true, false, [⟨none, some 100, some 10⟩]⟩

/-- A two-row run whose first timestamp parses to 5 and whose second is NaT. -/
def twoRowFrame : RawFrame :=
  ⟨true, true, true, false, [⟨some 5, some 1, some 1⟩, ⟨none, some 1, some 1⟩]⟩

/-- The concrete three-run batch used as C9 witness: two loadable one-or-two
row runs around one unreadable file. -/
def runsW : List (Except Unit RawFrame) :=
  [Except.ok plainRowFrame, Except.error (), Except.ok twoRowFrame]

/-- One pilot directory holding two 150 W runs. -/
def onePilotTwoRuns : List (String × List String) :=
  [("A Tests", [("a_150.csv"), ("b_150.csv")])]

/-- Two pilot directories holding one 150 W run each. -/
def twoPilotInput : List (String × List String) :=
  [("B Tests", [("x_150.csv")]), ("A Tests", [("y_150.csv")])]

/-- `splitOnTests` always yields at least one part. -/
theorem splitOnTests_ne_nil (l : List Char) : splitOnTests l ≠ [] := by
  induction l using removeTests.induct with
  | case1 rest ih => simp [splitOnTests.eq_1]
  | case2 c rest hns ih =>
    rw [splitOnTests.eq_2 c rest hns]
    cases h' : splitOnTests rest <;> simp
  | case3 => simp [splitOnTests.eq_3]

/-- Python `str.replace(' Tests', '')` equals concatenating the parts obtained
by splitting on the non-overlapping occurrences of " Tests". -/
theorem removeTests_eq_flatten (l : List Char) :
    removeTests l = (splitOnTests l).flatten := by
  induction l using removeTests.induct with
  | case1 rest ih => rw [removeTests.eq_1, splitOnTests.eq_1]; simpa using ih
  | case2 c rest hns ih =>
    rw [removeTests.eq_2 c rest hns, splitOnTests.eq_2 c rest hns]
    cases h' : splitOnTests rest with
    | nil => exact absurd h' (splitOnTests_ne_nil rest)
    | cons hd tl =>
      rw [h'] at ih
      simp [ih]
  | case3 => simp [removeTests.eq_3, splitOnTests.eq_3]

/-- C6: `extract_test_type` is a case-insensitive substring classifier checked
in the order 250 → 200 → 150 → Passive → Unknown with first match winning,
where each wattage token only matches when "passive" is absent — equivalently,
a filename containing "passive" is always `Passive`, and otherwise the highest
wattage present wins; and the three claimed examples classify as stated. -/
theorem c6_test_type_priority :
    (∀ s : String, extract_test_type s =
      (if strIncl (pyLower s) ("passive") then "Passive"
       else if strIncl (pyLower s) ("250") then "250W"
       else if strIncl (pyLower s) ("200") then "200W"
       else if strIncl (pyLower s) ("150") then "150W"
       else "Unknown")) ∧
    extract_test_type ("Run_250W_passive.csv") = "Passive" ∧
    extract_test_type ("Test_200_run1.csv") = "200W" ∧
    extract_test_type ("plain.csv") = "Unknown" := by
  refine ⟨fun s => ?_, by decide, by decide, by decide⟩
  simp only [extract_test_type]
  cases hp : strIncl (pyLower s) ("passive") <;>
    cases h2 : strIncl (pyLower s) ("250") <;>
      cases h1 : strIncl (pyLower s) ("200") <;>
        cases h0 : strIncl (pyLower s) ("150") <;>
          simp [hp, h2, h1, h0]

/-- C7 counterexample: the claim says `extract_pilot_short_name` strips only a
trailing " Tests" suffix, but Python `str.replace(' Tests', '')` deletes every
occurrence: on "Ab Tests Tests" the code yields "Ab" while the claimed
trailing-suffix behaviour yields "Ab Tests". -/
theorem c7_counterexample :
    extract_pilot_short_name ("Ab Tests Tests") = "Ab" ∧
    display_name_claimed ("Ab Tests Tests") = "Ab Tests" ∧
    extract_pilot_short_name ("Ab Tests Tests") ≠
      display_name_claimed ("Ab Tests Tests") := by decide

/-- C7 (amended): `extract_pilot_short_name` deletes every non-overlapping
occurrence of " Tests" (scanning left to right), trims surrounding whitespace,
and then — exactly once — inserts a space before the last character when the
last character is uppercase and the second-to-last is lowercase; the claimed
examples "AndrewR Tests" → "Andrew R" and "Maria Tests" → "Maria" hold. -/
theorem c7_display_name_amended :
    (∀ s : String, extract_pilot_short_name s =
      ⟨camelFix (pyStrip (splitOnTests s.data).flatten)⟩) ∧
    extract_pilot_short_name ("AndrewR Tests") = "Andrew R" ∧
    extract_pilot_short_name ("Maria Tests") = "Maria" := by
  refine ⟨fun s => ?_, by decide, by decide⟩
  simp [extract_pilot_short_name, removeTests_eq_flatten]

/-- C3 (code bug): for a run in which no row's timestamp parses (and
`pd.to_datetime(..., errors="coerce")` therefore returns all-NaT without
raising), the code does NOT fall back to the ordinal index: `t0` is NaT, every
difference is NaT, and `time_s` is undefined for every row instead of being
the claimed `time_s[i] = i`. -/
theorem c3_bug_no_ordinal_fallback :
    (compute_torque_frame 24 48 (1500124 / 10000000) allNatFrame).time_s = [none] ∧
    (compute_torque_frame 24 48 (1500124 / 10000000) allNatFrame).time_s ≠ [some 0] := by
  decide

/-- C2 (code bug): on a zero-row run every torque value is (vacuously)
undefined, but `np.nanmax` of the empty torque column raises ValueError
(`Except.error`) instead of yielding an undefined maximum.  On nonempty
all-undefined columns the claim's behaviour does hold: with `gear3_teeth = 0`,
or with speed 0, the sole torque value is undefined and median and max are both
undefined (`none`), nothing raises and no numeric junk appears. -/
theorem c2_bug_nanmax_empty_column :
    summaryRecord (compute_torque_frame 24 48 (1500124 / 10000000) emptyFrame)
      = .error () ∧
    summaryRecord (compute_torque_frame 0 48 (1500124 / 10000000) plainRowFrame)
      = .ok (none, none) ∧
    summaryRecord (compute_torque_frame 24 48 (1500124 / 10000000) zeroSpeedFrame)
      = .ok (none, none) := by
  refine ⟨by decide, by decide, ?_⟩
  simp [summaryRecord, compute_torque_frame, ensureColumns, zeroSpeedFrame,
    torqueVal, nanmedian, nanmax, Except.map]

/-- C10 (code bug): a discovered batch consisting of one loadable run with zero
data rows aborts with an uncaught error (the ValueError from `np.nanmax`)
instead of being recovered locally, even though at least one input run exists;
only the empty batch returns the zero-input code 1. -/
theorem c10_bug_zero_row_run_aborts_batch :
    pyMain 24 48 (1500124 / 10000000) [Except.ok emptyFrame] = .error () ∧
    ([Except.ok emptyFrame] : List (Except Unit RawFrame)) ≠ [] ∧
    pyMain 24 48 (1500124 / 10000000) [] = .ok 1 := by
  decide

/-- `ensureColumns` keeps the number of rows. -/
theorem ensureColumns_rows_length (f : RawFrame) :
    (ensureColumns f).rows.length = f.rows.length := by
  simp [ensureColumns]

/-- The derived time column always has one entry per row. -/
theorem timeColumn_length (f : RawFrame) :
    (timeColumn f).length = f.rows.length := by
  unfold timeColumn
  split
  · simp only [List.length_map, List.length_range]
  · cases h : minsome (f.rows.map (·.timestamp)) <;>
      simp only [List.length_map]

/-- C1: whenever `gear3_teeth` is nonzero, every row whose derived `speed_mps`
is nonzero gets exactly
`torque4_nm = power_w * (gear4_teeth / gear3_teeth) * wheel2_radius_m / speed_mps`,
with no clamping (the defined torque entry is literally that quotient). -/
theorem c1_torque_formula (g3 g4 : ℤ) (w : ℚ) (f : RawFrame)
    (h3 : g3 ≠ 0) (i : ℕ) (p s : ℚ)
    (hp : (compute_torque_frame g3 g4 w f).power_w[i]? = some p)
    (hs : (compute_torque_frame g3 g4 w f).speed_mps[i]? = some s)
    (hs0 : s ≠ 0) :
    (compute_torque_frame g3 g4 w f).torque4_nm[i]? =
      some (some (p * ((g4 : ℚ) / (g3 : ℚ)) * w / s)) := by
  have hcol : (compute_torque_frame g3 g4 w f).torque4_nm =
      List.zipWith (fun a b => torqueVal (some ((g4 : ℚ) / (g3 : ℚ))) w a b)
        (compute_torque_frame g3 g4 w f).power_w
        (compute_torque_frame g3 g4 w f).speed_mps := by
    simp [compute_torque_frame, h3]
  rw [hcol, List.getElem?_zipWith', hp, hs]
  simp [torqueVal, hs0]

/-- C1 witness: a concrete one-row run with power 100 W and speed 10 mph under
gears 24/48 and wheel radius 0.15 m. -/
theorem c1_torque_formula_witness :
    ((24 : ℤ) ≠ 0) ∧
    (compute_torque_frame 24 48 (15 / 100) plainRowFrame).power_w[0]? = some 100 ∧
    (compute_torque_frame 24 48 (15 / 100) plainRowFrame).speed_mps[0]?
      = some (10 * mphToMps) ∧
    ((10 * mphToMps : ℚ) ≠ 0) ∧
    (compute_torque_frame 24 48 (15 / 100) plainRowFrame).torque4_nm[0]? =
      some (some ((100 : ℚ) * (((48 : ℤ) : ℚ) / ((24 : ℤ) : ℚ)) * (15 / 100)
        / (10 * mphToMps))) := by
  refine ⟨by decide, rfl, rfl, by simp [mphToMps], ?_⟩
  exact c1_torque_formula 24 48 (15 / 100) plainRowFrame (by decide) 0 100
    (10 * mphToMps) rfl rfl (by simp [mphToMps])

/-- C5: `compute_torque_frame` is total over any tabular input (it is a plain
function on every `RawFrame`, rows included zero); each derived column has one
entry per input row; a missing `speed`/`power` column is synthesized as the
constant 0.0 and a missing `timestamp` column as all-undefined; and every row
gets `speed_mps = to_number(speed, default 0) * 0.44704` and
`power_w = to_number(power, default 0)`, so unparsable numeric cells degrade
to 0. -/
theorem c5_normalizer_total (g3 g4 : ℤ) (w : ℚ) (f : RawFrame) :
    ((compute_torque_frame g3 g4 w f).time_s.length = f.rows.length ∧
     (compute_torque_frame g3 g4 w f).speed_mps.length = f.rows.length ∧
     (compute_torque_frame g3 g4 w f).power_w.length = f.rows.length ∧
     (compute_torque_frame g3 g4 w f).torque4_nm.length = f.rows.length) ∧
    (∀ i : ℕ, (compute_torque_frame g3 g4 w f).speed_mps[i]? =
      (f.rows[i]?).map fun r =>
        (if f.hasSpeed then r.speed else some 0).getD 0 * mphToMps) ∧
    (∀ i : ℕ, (compute_torque_frame g3 g4 w f).power_w[i]? =
      (f.rows[i]?).map fun r => (if f.hasPower then r.power else some 0).getD 0) ∧
    (∀ i : ℕ, ((ensureColumns f).rows[i]?).map (·.timestamp) =
      (f.rows[i]?).map fun r => if f.hasTimestamp then r.timestamp else none) := by
  refine ⟨⟨?_, ?_, ?_, ?_⟩, fun i => ?_, fun i => ?_, fun i => ?_⟩
  · simp [compute_torque_frame, timeColumn_length, ensureColumns_rows_length]
  · simp [compute_torque_frame, ensureColumns]
  · simp [compute_torque_frame, ensureColumns]
  · simp [compute_torque_frame, ensureColumns]
  · cases h : f.rows[i]? <;>
      simp [compute_torque_frame, ensureColumns, List.getElem?_map, h]
  · cases h : f.rows[i]? <;>
      simp [compute_torque_frame, ensureColumns, List.getElem?_map, h]
  · cases h : f.rows[i]? <;> simp [ensureColumns, List.getElem?_map, h]

/-- When `minList` yields a value, that value is a member of the list and a
lower bound for it. -/
theorem minList_spec (l : List ℚ) (x : ℚ) (h : minList l = some x) :
    x ∈ l ∧ ∀ y ∈ l, x ≤ y := by
  induction l generalizing x with
  | nil => simp [minList] at h
  | cons a t ih =>
    simp only [minList] at h
    cases ht : minList t with
    | none =>
      rw [ht] at h
      simp at h
      subst h
      refine ⟨by simp, ?_⟩
      intro y hy
      rcases List.mem_cons.mp hy with rfl | hy
      · exact le_refl _
      · cases t with
        | nil => simp at hy
        | cons b t' => cases h' : minList t' <;> simp [minList, h'] at ht
    | some m =>
      rw [ht] at h
      simp at h
      subst h
      obtain ⟨hm, hle⟩ := ih m ht
      constructor
      · rcases min_choice a m with hmin | hmin
        · rw [hmin]; simp
        · rw [hmin]; exact List.mem_cons_of_mem _ hm
      · intro y hy
        rcases List.mem_cons.mp hy with rfl | hy
        · exact min_le_left _ _
        · exact le_trans (min_le_right a m) (hle y hy)

/-- The timestamp column is unchanged by column synthesis. -/
theorem ensure_ts (f : RawFrame) :
    (ensureColumns f).rows.map (·.timestamp) = effTs f := by
  simp [ensureColumns, effTs]

/-- Column synthesis does not touch the raises flag. -/
theorem ensure_raises (f : RawFrame) :
    (ensureColumns f).toDatetimeRaises = f.toDatetimeRaises := rfl

/-- In the no-raise branch, when some timestamp parses the whole time column is
the elementwise difference from the minimum `t0`. -/
theorem timeColumn_of_min (g : RawFrame) (t0 : ℚ) (hr : g.toDatetimeRaises = false)
    (hm : minsome (g.rows.map (·.timestamp)) = some t0) :
    timeColumn g = (g.rows.map (·.timestamp)).map fun o => o.map fun t => t - t0 := by
  unfold timeColumn
  rw [hr, hm]
  simp

/-- C4: if the conversion does not raise and at least one row's timestamp
parses, then `t0` (the minimum parsed time, as witnessed by the membership and
lower-bound conjuncts) exists and every row's `time_s` is its parsed time minus
`t0`, with individually unparsable rows keeping an undefined `time_s` (the
elementwise `Option.map` leaves `none` untouched). -/
theorem c4_time_base (g3 g4 : ℤ) (w : ℚ) (f : RawFrame) (t0 : ℚ)
    (hr : f.toDatetimeRaises = false)
    (hmin : minsome (effTs f) = some t0) :
    (compute_torque_frame g3 g4 w f).time_s =
      (effTs f).map (fun o => o.map fun t => t - t0) ∧
    t0 ∈ (effTs f).filterMap id ∧
    (∀ t ∈ (effTs f).filterMap id, t0 ≤ t) := by
  have hmin' : minList ((effTs f).filterMap id) = some t0 := hmin
  obtain ⟨hmem, hle⟩ := minList_spec _ _ hmin'
  refine ⟨?_, hmem, hle⟩
  calc (compute_torque_frame g3 g4 w f).time_s
      = timeColumn (ensureColumns f) := rfl
    _ = ((ensureColumns f).rows.map (·.timestamp)).map
          (fun o => o.map fun t => t - t0) := by
        refine timeColumn_of_min _ t0 ?_ ?_
        · rw [ensure_raises, hr]
        · rw [ensure_ts]; exact hmin
    _ = (effTs f).map (fun o => o.map fun t => t - t0) := by rw [ensure_ts]

/-- C4 witness: on the concrete two-row run, `t0 = 5`, the parsed row gets
`time_s = 5 - 5` and the unparsable row keeps `none`. -/
theorem c4_time_base_witness :
    twoRowFrame.toDatetimeRaises = false ∧
    minsome (effTs twoRowFrame) = some 5 ∧
    ((compute_torque_frame 24 48 (15 / 100) twoRowFrame).time_s =
      (effTs twoRowFrame).map (fun o => o.map fun t => t - 5) ∧
     (5 : ℚ) ∈ (effTs twoRowFrame).filterMap id ∧
     (∀ t ∈ (effTs twoRowFrame).filterMap id, (5 : ℚ) ≤ t)) :=
  ⟨rfl, by decide, c4_time_base 24 48 (15 / 100) twoRowFrame 5 rfl (by decide)⟩

/-- The torque column has one entry per input row. -/
theorem torque4_length (g3 g4 : ℤ) (w : ℚ) (f : RawFrame) :
    (compute_torque_frame g3 g4 w f).torque4_nm.length = f.rows.length := by
  simp [compute_torque_frame, ensureColumns]

/-- Computing the summary record of a run with at least one row never raises:
`np.nanmax` only raises on a zero-size column. -/
theorem summaryRecord_ok_of_rows_ne_nil (g3 g4 : ℤ) (w : ℚ) (f : RawFrame)
    (h : f.rows ≠ []) :
    ∃ rec, summaryRecord (compute_torque_frame g3 g4 w f) = .ok rec := by
  cases h' : (compute_torque_frame g3 g4 w f).torque4_nm with
  | nil =>
    exfalso
    have hl := torque4_length g3 g4 w f
    rw [h'] at hl
    exact h (List.length_eq_zero.mp hl.symm)
  | cons a t =>
    cases hr : summaryRecord (compute_torque_frame g3 g4 w f) with
    | ok rec => exact ⟨rec, rfl⟩
    | error e =>
      exfalso
      simp [summaryRecord, nanmax, h', Except.map] at hr

/-- Folding the run loop over runs whose loaded frames are all nonempty never
aborts, and appends exactly one record per successfully loaded run. -/
theorem batch_fold_ok (g3 g4 : ℤ) (w : ℚ) :
    ∀ (runs : List (Except Unit RawFrame)) (acc : List (Option ℚ × Option ℚ)),
      (∀ f, Except.ok f ∈ runs → f.rows ≠ []) →
      ∃ recs, runs.foldl (runStep g3 g4 w) (.ok acc) = .ok recs ∧
        recs.length = acc.length + runs.countP (fun r => r.isOk) := by
  intro runs
  induction runs with
  | nil => exact fun acc _ => ⟨acc, rfl, by simp⟩
  | cons r rest ih =>
    intro acc h
    have hr : ∀ f, Except.ok f ∈ rest → f.rows ≠ [] :=
      fun f hf => h f (List.mem_cons_of_mem _ hf)
    cases r with
    | error e =>
      obtain ⟨recs, h1, h2⟩ := ih acc hr
      refine ⟨recs, ?_, ?_⟩
      · simpa [runStep] using h1
      · rw [h2]; simp [List.countP_cons, Except.isOk, Except.toBool]
    | ok f =>
      have hne := h f (List.mem_cons_self _ _)
      obtain ⟨rec, hrec⟩ := summaryRecord_ok_of_rows_ne_nil g3 g4 w f hne
      obtain ⟨recs, h1, h2⟩ := ih (acc ++ [rec]) hr
      refine ⟨recs, ?_, ?_⟩
      · simpa [runStep, hrec] using h1
      · rw [h2]; simp [List.countP_cons, Except.isOk, Except.toBool,
          List.length_append]; omega

/-- C9: a run that fails to load is skipped and contributes no summary record
while the batch continues: over any batch whose loadable runs have at least one
row, the loop never aborts and produces exactly one record per successfully
loaded run; the batch returns exit code 1 exactly when zero runs are
discovered, and exit code 0 on success including such partial failures. -/
theorem c9_skip_failed_loads_and_exit_codes (g3 g4 : ℤ) (w : ℚ)
    (runs : List (Except Unit RawFrame)) :
    (pyMain g3 g4 w runs = .ok 1 ↔ runs = []) ∧
    ((∀ f, Except.ok f ∈ runs → f.rows ≠ []) →
      ∃ recs, batchRecords g3 g4 w runs = .ok recs ∧
        recs.length = runs.countP (fun r => r.isOk) ∧
        (runs ≠ [] → pyMain g3 g4 w runs = .ok 0)) := by
  constructor
  · constructor
    · intro h
      by_contra hne
      unfold pyMain at h
      rw [if_neg (by simp [hne])] at h
      cases hb : batchRecords g3 g4 w runs with
      | error e => rw [hb] at h; simp [Except.map] at h
      | ok l => rw [hb] at h; simp [Except.map] at h
    · intro h; subst h; rfl
  · intro hyp
    obtain ⟨recs, h1, h2⟩ := batch_fold_ok g3 g4 w runs [] hyp
    refine ⟨recs, h1, by simpa using h2, fun hne => ?_⟩
    unfold pyMain
    rw [if_neg (by simp [hne])]
    rw [show batchRecords g3 g4 w runs = .ok recs from h1]
    rfl

/-- C9 witness: in a batch of 3 discovered runs of which 1 fails to load, the
loop yields exactly 2 summary records and the batch exits with code 0. -/
theorem c9_skip_failed_loads_and_exit_codes_witness :
    (∀ f, Except.ok f ∈ runsW → f.rows ≠ []) ∧
    (∃ recs, batchRecords 24 48 (15 / 100) runsW = .ok recs ∧
      recs.length = runsW.countP (fun r => r.isOk) ∧
      (runsW ≠ [] → pyMain 24 48 (15 / 100) runsW = .ok 0)) ∧
    runsW.countP (fun r => r.isOk) = 2 ∧ runsW ≠ [] := by
  have hmem : ∀ f, Except.ok f ∈ runsW → f.rows ≠ [] := by
    intro f hf
    simp only [runsW, List.mem_cons, List.not_mem_nil, or_false,
      reduceCtorEq, false_or, Except.ok.injEq] at hf
    rcases hf with rfl | rfl <;> decide
  exact ⟨hmem,
    (c9_skip_failed_loads_and_exit_codes 24 48 (15 / 100) runsW).2 hmem,
    by decide, by decide⟩

/-- Membership is preserved by ordered insertion. -/
theorem mem_insertOrd (r : α → α → Bool) (x a : α) (l : List α) :
    a ∈ insertOrd r x l ↔ a = x ∨ a ∈ l := by
  induction l with
  | nil => simp [insertOrd]
  | cons y ys ih =>
    simp only [insertOrd]
    split
    · simp [List.mem_cons]
    · simp only [List.mem_cons, ih]
      tauto

/-- Membership is preserved by the insertion sort. -/
theorem mem_insSort (r : α → α → Bool) (a : α) (l : List α) :
    a ∈ insSort r l ↔ a ∈ l := by
  induction l with
  | nil => simp [insSort]
  | cons y ys ih =>
    simp only [insSort, mem_insertOrd, ih, List.mem_cons]

/-- Ordered insertion adds exactly one element. -/
theorem length_insertOrd (r : α → α → Bool) (x : α) (l : List α) :
    (insertOrd r x l).length = l.length + 1 := by
  induction l with
  | nil => rfl
  | cons y ys ih =>
    simp only [insertOrd]
    split
    · rfl
    · simp [ih]

/-- The insertion sort keeps the length. -/
theorem length_insSort (r : α → α → Bool) (l : List α) :
    (insSort r l).length = l.length := by
  induction l with
  | nil => rfl
  | cons y ys ih => simp [insSort, length_insertOrd, ih]

/-- Appending one value to the dict: the stored list grows at the given key and
is unchanged at every other key. -/
theorem getList_addEntry (m : List (String × List β)) (k k' : String) (v : β) :
    getList (addEntry m k v) k' =
      if k' = k then getList m k' ++ [v] else getList m k' := by
  induction m with
  | nil =>
    by_cases h : k' = k
    · subst h; simp [addEntry, getList]
    · rw [if_neg h]
      simp only [addEntry, getList]
      rw [if_neg fun hh => h hh.symm]
  | cons p rest ih =>
    obtain ⟨k₀, l₀⟩ := p
    by_cases h0 : k₀ = k
    · subst h0
      simp only [addEntry, if_pos rfl, getList]
      by_cases h' : k₀ = k'
      · subst h'; simp [getList]
      · rw [if_neg h', if_neg fun hh => h' hh.symm, if_neg h']
    · simp only [addEntry, if_neg h0, getList]
      by_cases h' : k₀ = k'
      · subst h'
        rw [if_pos rfl, if_neg h0, if_pos rfl]
      · rw [if_neg h', ih, if_neg h']

/-- Folding the whole entry stream into the dict: the list stored at `k` is
exactly the stream filtered to key `k`, in stream order. -/
theorem getList_fold (es : List (String × β)) :
    ∀ (m : List (String × List β)) (k : String),
      getList (es.foldl (fun m e => addEntry m e.1 e.2) m) k =
        getList m k ++ (es.filter (fun e => e.1 == k)).map (fun e => e.2) := by
  induction es with
  | nil => intro m k; simp
  | cons e rest ih =>
    intro m k
    simp only [List.foldl_cons]
    rw [ih, getList_addEntry]
    by_cases h : k = e.1
    · rw [if_pos h]
      have : (e.1 == k) = true := by simp [h.symm]
      simp [List.filter_cons, this]
    · rw [if_neg h]
      have : (e.1 == k) = false := by simp; exact fun hh => h hh.symm
      simp [List.filter_cons, this]

/-- The key sequence after `addEntry`: unchanged if the key exists, otherwise
extended at the end. -/
theorem keys_addEntry (m : List (String × List β)) (k : String) (v : β) :
    (addEntry m k v).map Prod.fst =
      if k ∈ m.map Prod.fst then m.map Prod.fst else m.map Prod.fst ++ [k] := by
  induction m with
  | nil => simp [addEntry]
  | cons p rest ih =>
    obtain ⟨k₀, l₀⟩ := p
    by_cases h0 : k₀ = k
    · subst h0; simp [addEntry]
    · simp only [addEntry, if_neg h0, List.map_cons, ih]
      have : (k ∈ k₀ :: rest.map Prod.fst) ↔ (k ∈ rest.map Prod.fst) := by
        simp [List.mem_cons]
        exact fun hh => absurd hh.symm h0
      by_cases h1 : k ∈ rest.map Prod.fst <;> simp [h1, this]

/-- `addEntry` keeps the keys duplicate-free. -/
theorem nodup_keys_addEntry (m : List (String × List β)) (k : String) (v : β)
    (h : (m.map Prod.fst).Nodup) : ((addEntry m k v).map Prod.fst).Nodup := by
  rw [keys_addEntry]
  by_cases h1 : k ∈ m.map Prod.fst
  · simpa [h1] using h
  · rw [if_neg h1, List.nodup_append]
    refine ⟨h, List.nodup_singleton _, ?_⟩
    intro a ha hb
    simp only [List.mem_singleton] at hb
    subst hb
    exact h1 ha

/-- The dict built by the fold has duplicate-free keys. -/
theorem nodup_keys_fold (es : List (String × β)) :
    ∀ (m : List (String × List β)), (m.map Prod.fst).Nodup →
      (((es.foldl (fun m e => addEntry m e.1 e.2) m)).map Prod.fst).Nodup := by
  induction es with
  | nil => exact fun m h => h
  | cons e rest ih =>
    intro m h
    exact ih _ (nodup_keys_addEntry m e.1 e.2 h)

/-- In a dict with duplicate-free keys, lookup recovers each stored pair. -/
theorem getList_eq_of_mem (m : List (String × List β)) (k : String) (l : List β) :
    (m.map Prod.fst).Nodup → (k, l) ∈ m → getList m k = l := by
  induction m with
  | nil => intro _ h; simp at h
  | cons p rest ih =>
    intro hnd h
    obtain ⟨k₀, l₀⟩ := p
    rw [List.map_cons, List.nodup_cons] at hnd
    obtain ⟨hnotin, hnd'⟩ := hnd
    rcases List.mem_cons.mp h with heq | htail
    · injection heq with h1 h2
      subst h1
      subst h2
      simp [getList]
    · have hk : k₀ ≠ k := by
        intro hh
        subst hh
        exact hnotin (List.mem_map.mpr ⟨(k₀, l), htail, rfl⟩)
      simp only [getList, if_neg hk]
      exact ih hnd' htail

/-- A key whose stored list is nonempty occurs in the dict with that list. -/
theorem mem_of_getList_ne_nil (m : List (String × List β)) (k : String) :
    getList m k ≠ [] → (k, getList m k) ∈ m := by
  induction m with
  | nil => intro h; simp [getList] at h
  | cons p rest ih =>
    intro h
    obtain ⟨k₀, l₀⟩ := p
    by_cases h0 : k₀ = k
    · subst h0
      simp [getList]
    · simp only [getList, if_neg h0] at h ⊢
      exact List.mem_cons_of_mem _ (ih h)

/-- C8 counterexample: the aggregator plots one series per run, not one per
pilot.  A single pilot with two 150 W runs yields a 150W overlay with two
series, while the number of pilots having at least one 150 W run is one. -/
theorem c8_counterexample :
    (create_comparison_plots onePilotTwoRuns).map (fun kv => (kv.1, kv.2.length))
      = [("150W", 2)] ∧
    (onePilotTwoRuns.filter fun pr =>
      pr.2.any fun fn => extract_test_type (stemOf fn) == "150W").length = 1 ∧
    (2 : ℕ) ≠ 1 := by decide

/-- C8 (amended): every overlay the aggregator emits has a test type other than
`Unknown`; its series are exactly the `(pilot display name, path)` pairs of the
runs classified to that type — one series per run — sorted by that pair; and
conversely every test type other than `Unknown` with at least one run gets an
overlay.  `Unknown`-classified runs appear in no overlay. -/
theorem c8_comparison_amended (pilots : List (String × List String)) (t : String)
    (series : List (String × String)) :
    ((t, series) ∈ create_comparison_plots pilots →
      t ≠ "Unknown" ∧
      series = insSort pairLeB
        (((entriesOf pilots).filter fun e => e.1 == t).map fun e => e.2) ∧
      series.length = ((entriesOf pilots).filter fun e => e.1 == t).length) ∧
    (t ≠ "Unknown" → (∃ e ∈ entriesOf pilots, e.1 = t) →
      ∃ l, (t, l) ∈ create_comparison_plots pilots) := by
  constructor
  · intro hmem
    unfold create_comparison_plots at hmem
    obtain ⟨kv, hkv, heq⟩ := List.mem_map.mp hmem
    obtain ⟨hkv1, hkv2⟩ := List.mem_filter.mp hkv
    injection heq with he1 he2
    subst he1
    subst he2
    have hkv3 : kv ∈ groupEntries (entriesOf pilots) :=
      (mem_insSort _ _ _).mp hkv1
    have hnd : ((groupEntries (entriesOf pilots)).map Prod.fst).Nodup :=
      nodup_keys_fold (entriesOf pilots) [] (by simp)
    have hget : getList (groupEntries (entriesOf pilots)) kv.1 = kv.2 := by
      obtain ⟨k, l⟩ := kv
      exact getList_eq_of_mem _ _ _ hnd hkv3
    have hfold : getList (groupEntries (entriesOf pilots)) kv.1 =
        ((entriesOf pilots).filter fun e => e.1 == kv.1).map fun e => e.2 := by
      simpa [groupEntries, getList] using
        getList_fold (entriesOf pilots) [] kv.1
    refine ⟨by simpa using hkv2, ?_, ?_⟩
    · rw [← hget, hfold]
    · rw [length_insSort, ← hget, hfold, List.length_map]
  · intro ht hex
    obtain ⟨e, he, hek⟩ := hex
    have hne : getList (groupEntries (entriesOf pilots)) t ≠ [] := by
      have hfold : getList (groupEntries (entriesOf pilots)) t =
          ((entriesOf pilots).filter fun e => e.1 == t).map fun e => e.2 := by
        simpa [groupEntries, getList] using
          getList_fold (entriesOf pilots) [] t
      rw [hfold]
      have hmm : e.2 ∈ ((entriesOf pilots).filter fun e => e.1 == t).map
          fun e => e.2 :=
        List.mem_map.mpr ⟨e, List.mem_filter.mpr ⟨he, by simp [hek]⟩, rfl⟩
      exact List.ne_nil_of_mem hmm
    have hmem : (t, getList (groupEntries (entriesOf pilots)) t) ∈
        groupEntries (entriesOf pilots) := mem_of_getList_ne_nil _ _ hne
    refine ⟨insSort pairLeB (getList (groupEntries (entriesOf pilots)) t), ?_⟩
    unfold create_comparison_plots
    refine List.mem_map.mpr ⟨(t, getList (groupEntries (entriesOf pilots)) t),
      List.mem_filter.mpr ⟨(mem_insSort _ _ _).mpr hmem, by simpa using ht⟩, rfl⟩

/-- C8 witness: on two pilot directories with one 150 W run each, the 150W
overlay exists, is the only artifact, and its two series are ordered by pilot
display name ("A" before "B"). -/
theorem c8_comparison_amended_witness :
    (("150W" : String) ≠ "Unknown" ∧
     [(("A" : String), ("A Tests/y_150.csv" : String)), ("B", "B Tests/x_150.csv")] =
       insSort pairLeB
         (((entriesOf twoPilotInput).filter fun e => e.1 == "150W").map
           fun e => e.2) ∧
     ([(("A" : String), ("A Tests/y_150.csv" : String)),
        ("B", "B Tests/x_150.csv")]).length =
       ((entriesOf twoPilotInput).filter fun e => e.1 == "150W").length) ∧
    (∃ l, (("150W" : String), l) ∈ create_comparison_plots twoPilotInput) :=
  ⟨(c8_comparison_amended twoPilotInput ("150W")
      [("A", "A Tests/y_150.csv"), ("B", "B Tests/x_150.csv")]).1 (by decide),
   (c8_comparison_amended twoPilotInput ("150W") []).2 (by decide) (by decide)⟩
